import Mathlib

/-!
# Cloud media gallery (`src/App.jsx`): a shallow embedding and its properties

The single source file `App.jsx` holds the gallery controller: five pieces of
component state, three asynchronous operations over a blob-storage SDK
(`fetchFiles`, `handleSubmit`, `handleDelete`) and three pure helpers
(`getFileType`, `getFileNameWithoutExtension`, the derived `filteredFiles`).

JavaScript strings are embedded as Lean strings and every string primitive the
source calls is defined on the character list.  The source only searches for
ASCII needles (`image/`, `video/`, `audio/`, `.`) and cuts at the index found, so
on well-formed strings the UTF-16 code-unit view of JavaScript and the code-point
view taken here give the same results.  A `file` state that is `null` or
`undefined` is `none`.  The storage SDK is external to the repository and enters
the model as a parameter (`Gateway`).
-/

namespace CloudMediaSharing

/-! ## JavaScript string primitives called by the source -/

/-- JS `s.startsWith(p)`. -/
def startsWith (s p : String) : Bool :=
  p.data.isPrefixOf s.data

/-- Backwards scan behind JS `lastIndexOf`: looks at the indices `k-1, …, 0` of `s`
and returns the first one holding `c`, or `-1`. -/
def lastIndexOfFrom (s : List Char) (c : Char) : Nat → Int
  | 0 => -1
  | k + 1 => if s[k]? = some c then (k : Int) else lastIndexOfFrom s c k

/-- JS `s.lastIndexOf(c)` for a one-character needle. -/
def lastIndexOf (s : String) (c : Char) : Int :=
  lastIndexOfFrom s.data c s.length

/-- Index normalisation of JS `slice`: a negative index counts from the end, and
the result is clamped to `[0, len]`. -/
def sliceIndex (len : Nat) (i : Int) : Nat :=
  if i < 0 then ((len : Int) + i).toNat else min i.toNat len

/-- JS `s.slice(start, stop)`. -/
def slice (s : String) (start stop : Int) : String :=
  let lo := sliceIndex s.data.length start
  let hi := sliceIndex s.data.length stop
  ⟨(s.data.drop lo).take (hi - lo)⟩

/-- JS template rendering of a non-negative integer (`${n}`): its decimal digits.
`Date.now()` is an integer number of milliseconds, far below the magnitude from
which JS switches to exponent form. -/
def decimal (n : Nat) : String :=
  Nat.repr n

/-! ## Data model -/

/-- One entry of `fileUrls` (the object literal pushed at App.jsx:29-33). -/
structure MediaItem where
  name : String
  url : String
  type : String
  deriving DecidableEq, Repr

/-- A blob as yielded by `containerClient.listBlobsFlat()`: `blob.name` and
`blob.properties.contentType` (which the SDK may leave undefined). -/
structure Blob where
  name : String
  contentType : Option String
  deriving DecidableEq, Repr

/-- A browser `File`: the two fields the source reads, `file.name` and `file.type`. -/
structure File where
  name : String
  type : String
  deriving DecidableEq, Repr

/-! ## Pure helpers of the component -/

/-- App.jsx:80-85. -/
def getFileType (type : String) : String :=
  if startsWith type "image/" then "image"
  else if startsWith type "video/" then "video"
  else if startsWith type "audio/" then "audio"
  else "other"

/-- App.jsx:87-90. -/
def getFileNameWithoutExtension (filename : String) : String :=
  let dotIndex := lastIndexOf filename '.'
  if dotIndex ≠ -1 then slice filename 0 dotIndex else filename

/-- App.jsx:92, with the two pieces of state it reads as arguments. -/
def filteredFiles (filter : String) (fileUrls : List MediaItem) : List MediaItem :=
  if filter = "all" then fileUrls
  else fileUrls.filter (fun f => getFileType f.type = filter)

/-- App.jsx:48, the template literal with `Date.now()` and `file.name` as arguments. -/
def blobName (now : Nat) (fileName : String) : String :=
  decimal now ++ "-" ++ fileName

/-! ## The storage SDK, as seen by the controller -/

/-- A value thrown by a gateway call (or by the runtime) and bound by `catch (error)`. -/
abbrev Err := String

/-- What one `for await (const blob of containerClient.listBlobsFlat())` observes:
the blobs yielded, in order, and then either the normal end of the iteration
(`none`) or a rejection (`some e`), which may come after any number of blobs. -/
structure Listing where
  yielded : List Blob
  error : Option Err
  deriving DecidableEq, Repr

/-- The SDK calls the component makes, over a remote state `σ` the component never
inspects. `uploadData` carries the blob name of the client it is called on, the
file, and the `blobContentType` header; `delete` the blob name of its client;
`url` is `getBlockBlobClient(name).url`. Every outcome is the gateway's choice. -/
structure Gateway (σ : Type) where
  listBlobsFlat : σ → Listing × σ
  uploadData : String → File → String → σ → Except Err Unit × σ
  delete : String → σ → Except Err Unit × σ
  url : String → String

/-! ## Component state and observable effects -/

/-- The five `useState` cells of App.jsx:10-14. -/
structure AppState where
  file : Option File
  fileType : String
  fileUrls : List MediaItem
  loading : Bool
  filter : String
  deriving DecidableEq, Repr

/-- The initial values of App.jsx:10-14. -/
def AppState.initial : AppState :=
  { file := none, fileType := "", fileUrls := [], loading := false, filter := "all" }

/-- A gateway call, with its arguments. -/
inductive Call where
  | listBlobsFlat
  | uploadData (blobName : String) (blobContentType : String)
  | delete (blobName : String)
  deriving DecidableEq, Repr

/-- The effects of an operation, in program order. A gateway call is recorded with
the value the loading flag has while the call is outstanding. -/
inductive Event where
  | preventDefault
  | alert (message : String)
  | consoleError (error : Err)
  | setLoading (value : Bool)
  | setFileUrls (urls : List MediaItem)
  | setFile (value : Option File)
  | setFileType (value : String)
  | gateway (call : Call) (loading : Bool)
  deriving DecidableEq, Repr

/-- Everything an operation can read or change: the component state, the remote
container, the clock read by `Date.now()`, and the effects so far. -/
structure World (σ : Type) where
  app : AppState
  remote : σ
  now : Nat
  trace : List Event

/-- An operation of the controller: it may change the world and ends normally or
by throwing. -/
def Ctl (σ : Type) (α : Type) : Type :=
  World σ → Except Err α × World σ

namespace Ctl

variable {σ : Type} {α β : Type}

/-- Normal completion. -/
def ret (a : α) : Ctl σ α :=
  fun w => (.ok a, w)

/-- Sequencing: a throw skips the rest, keeping the world reached. -/
def andThen (m : Ctl σ α) (f : α → Ctl σ β) : Ctl σ β :=
  fun w =>
    match m w with
    | (.ok a, w1) => f a w1
    | (.error e, w1) => (.error e, w1)

/-- JS `throw e`. -/
def raise (e : Err) : Ctl σ α :=
  fun w => (.error e, w)

/-- JS `try { body } catch (error) { handler } finally { finalizer }`: the handler
runs on a throw of the body, the finalizer runs in every case, and a throw of the
handler or of the finalizer leaves the statement. -/
def tryCatchFinally (body : Ctl σ Unit) (handler : Err → Ctl σ Unit)
    (finalizer : Ctl σ Unit) : Ctl σ Unit :=
  fun w =>
    let caught : Except Err Unit × World σ :=
      match body w with
      | (.ok a, w1) => (.ok a, w1)
      | (.error e, w1) => handler e w1
    match finalizer caught.2 with
    | (.ok _, w3) => (caught.1, w3)
    | (.error e, w3) => (.error e, w3)

end Ctl

instance instMonadCtl {σ : Type} : Monad (Ctl σ) where
  pure := Ctl.ret
  bind := Ctl.andThen

section Primitives

variable {σ : Type}

/-- Appends one effect to the trace. -/
def emit (ev : Event) : Ctl σ Unit :=
  fun w => (.ok (), { w with trace := w.trace ++ [ev] })

/-- Reads the component state. -/
def readApp : Ctl σ AppState :=
  fun w => (.ok w.app, w)

/-- JS `e.preventDefault()`. -/
def preventDefault : Ctl σ Unit :=
  emit .preventDefault

/-- JS `alert(message)`. -/
def alert (message : String) : Ctl σ Unit :=
  emit (.alert message)

/-- JS `console.error(error)`. -/
def consoleError (error : Err) : Ctl σ Unit :=
  emit (.consoleError error)

/-- State setter `setLoading(value)`. -/
def setLoading (value : Bool) : Ctl σ Unit :=
  fun w => (.ok (), { w with app := { w.app with loading := value },
                             trace := w.trace ++ [.setLoading value] })

/-- State setter `setFileUrls(urls)`. -/
def setFileUrls (urls : List MediaItem) : Ctl σ Unit :=
  fun w => (.ok (), { w with app := { w.app with fileUrls := urls },
                             trace := w.trace ++ [.setFileUrls urls] })

/-- State setter `setFile(value)`. -/
def setFile (value : Option File) : Ctl σ Unit :=
  fun w => (.ok (), { w with app := { w.app with file := value },
                             trace := w.trace ++ [.setFile value] })

/-- State setter `setFileType(value)`. -/
def setFileType (value : String) : Ctl σ Unit :=
  fun w => (.ok (), { w with app := { w.app with fileType := value },
                             trace := w.trace ++ [.setFileType value] })

/-- JS `Date.now()`. -/
def dateNow : Ctl σ Nat :=
  fun w => (.ok w.now, w)

/-- Starts `containerClient.listBlobsFlat()` and collects what the iteration will
observe; the rejection, if any, is raised by the loop that consumes it. -/
def callListBlobsFlat (g : Gateway σ) : Ctl σ Listing :=
  fun w =>
    let out := g.listBlobsFlat w.remote
    (.ok out.1, { w with remote := out.2,
                         trace := w.trace ++ [.gateway .listBlobsFlat w.app.loading] })

/-- The call `await containerClient.getBlockBlobClient(blobName).uploadData(file,
{ blobHTTPHeaders: { blobContentType: file.type } })`. -/
def callUploadData (g : Gateway σ) (blobName : String) (file : File) : Ctl σ Unit :=
  fun w =>
    let out := g.uploadData blobName file file.type w.remote
    (out.1, { w with remote := out.2,
                     trace := w.trace ++ [.gateway (.uploadData blobName file.type) w.app.loading] })

/-- The call `await containerClient.getBlockBlobClient(blobName).delete()`. -/
def callDelete (g : Gateway σ) (blobName : String) : Ctl σ Unit :=
  fun w =>
    let out := g.delete blobName w.remote
    (out.1, { w with remote := out.2,
                     trace := w.trace ++ [.gateway (.delete blobName) w.app.loading] })

end Primitives

/-! ## The controller (App.jsx:23-74) -/

/-- JS `value || fallback` on a string that may be undefined: the fallback is taken
when the value is undefined or the empty string. -/
def orElse (value : Option String) (fallback : String) : String :=
  match value with
  | some s => if s = "" then fallback else s
  | none => fallback

/-- The body of the `for await` loop, App.jsx:28-33: one `urls.push`. -/
def pushBlob {σ : Type} (g : Gateway σ) (urls : List MediaItem) (blob : Blob) : List MediaItem :=
  urls ++ [{ name := blob.name,
             url := g.url blob.name,
             type := orElse blob.contentType "application/octet-stream" }]

/-- App.jsx:23-41. -/
def fetchFiles {σ : Type} (g : Gateway σ) : Ctl σ Unit :=
  Ctl.tryCatchFinally
    (do
      setLoading true
      let listing ← callListBlobsFlat g
      let urls := listing.yielded.foldl (pushBlob g) []
      match listing.error with
      | some error => Ctl.raise error
      | none => setFileUrls urls)
    (fun error => consoleError error)
    (setLoading false)

/-- App.jsx:43-61. Reading `file.name` of a null `file` inside the `try` would be a
TypeError; the guard before the `try` makes that branch unreachable. -/
def handleSubmit {σ : Type} (g : Gateway σ) : Ctl σ Unit := do
  preventDefault
  let app ← readApp
  if app.file = none ∨ app.fileType = "" then
    alert "Please select a file type and file to upload"
  else
    Ctl.tryCatchFinally
      (do
        setLoading true
        let now ← dateNow
        match app.file with
        | none => Ctl.raise "TypeError: file is null"
        | some file =>
          let blobName := blobName now file.name
          callUploadData g blobName file
          fetchFiles g
          setFile none
          setFileType "")
      (fun error => consoleError error)
      (setLoading false)

/-- App.jsx:63-74. -/
def handleDelete {σ : Type} (g : Gateway σ) (blobName : String) : Ctl σ Unit :=
  Ctl.tryCatchFinally
    (do
      setLoading true
      callDelete g blobName
      fetchFiles g)
    (fun error => consoleError error)
    (setLoading false)

/-! ## Gateways the controller can be run against -/

/-- A gateway whose listing returns the stored keys: `keys r` are the object keys
held by the remote state `r`; a listing never rejects and yields one blob per stored
key; a successful write stores its key and a successful delete removes its key. -/
structure Gateway.ListsStoredKeys {σ : Type} (g : Gateway σ) (keys : σ → List String) : Prop where
  listing : ∀ r, (g.listBlobsFlat r).1.error = none ∧
    (g.listBlobsFlat r).1.yielded.map Blob.name = keys r
  uploaded : ∀ k f t r, (g.uploadData k f t r).1 = .ok () → k ∈ keys (g.uploadData k f t r).2
  deleted : ∀ k r, (g.delete k r).1 = .ok () → k ∉ keys (g.delete k r).2

/-- Failures injected into the in-memory gateway. -/
structure Faults where
  listFailsAfter : Option Nat
  uploadFails : Bool
  deleteFails : Bool
  deriving DecidableEq, Repr

/-- No failure at all. -/
def Faults.none : Faults :=
  { listFailsAfter := Option.none, uploadFails := false, deleteFails := false }

/-- An in-memory container: the remote state is the list of stored blobs. A write
replaces the blob of the same name, a delete of an absent name is rejected, and
`faults` makes calls reject (a listing after it has yielded some blobs). -/
def memoryGateway (faults : Faults) : Gateway (List Blob) where
  listBlobsFlat store :=
    match faults.listFailsAfter with
    | Option.none => ({ yielded := store, error := Option.none }, store)
    | some k => ({ yielded := store.take k, error := some "RestError: list" }, store)
  uploadData name _ contentType store :=
    if faults.uploadFails then (.error "RestError: upload", store)
    else (.ok (), store.filter (fun b => b.name ≠ name) ++ [{ name := name, contentType := some contentType }])
  delete name store :=
    if faults.deleteFails || !store.any (fun b => b.name = name) then
      (.error "RestError: delete", store)
    else (.ok (), store.filter (fun b => b.name ≠ name))
  url name := "https://account.blob.core.windows.net/media/" ++ name

/-- The operation `op`, run from the world `w`, keeps the loading flag around its
gateway calls: it ends normally (nothing is thrown to the caller), the loading flag is
false when it ends, and every gateway call it made was outstanding with the flag true. -/
def LoadingBrackets {σ : Type} (op : Ctl σ Unit) (w : World σ) : Prop :=
  (op w).1 = .ok () ∧ (op w).2.app.loading = false ∧
  ∃ evs : List Event, (op w).2.trace = w.trace ++ evs ∧
    ∀ (c : Call) (l : Bool), Event.gateway c l ∈ evs → l = true

/-- Value of a digit string, most significant digit first. -/
def digitsValue (ds : List Char) : Nat :=
  ds.foldl (fun acc c => 10 * acc + (c.toNat - 48)) 0

/-- A world around the in-memory container. -/
def sampleWorld (app : AppState) (store : List Blob) (now : Nat) : World (List Blob) :=
  { app := app, remote := store, now := now, trace := [] }

/-! ## Lemmas on the string primitives -/

lemma startsWith_iff (s p : String) : startsWith s p = true ↔ p.data <+: s.data := by
  unfold startsWith
  exact List.isPrefixOf_iff_prefix

lemma head_eq_of_common {a b : Char} {p q s : List Char}
    (h1 : (a :: p) <+: s) (h2 : (b :: q) <+: s) : a = b := by
  obtain ⟨r1, rfl⟩ := h1
  obtain ⟨r2, h⟩ := h2
  simp at h
  exact h.1.symm

lemma lastIndexOfFrom_cases (s : List Char) (c : Char) (k : Nat) :
    (lastIndexOfFrom s c k = -1 ∧ ∀ i, i < k → s[i]? ≠ some c) ∨
    ∃ j : Nat, lastIndexOfFrom s c k = (j : Int) ∧ j < k ∧ s[j]? = some c ∧
      ∀ i, j < i → i < k → s[i]? ≠ some c := by
  induction k with
  | zero => left; simp [lastIndexOfFrom]
  | succ k ih =>
    by_cases hk : s[k]? = some c
    · right
      refine ⟨k, by simp [lastIndexOfFrom, hk], Nat.lt_succ_self k, hk, ?_⟩
      intro i h1 h2; omega
    · rcases ih with ⟨h, hall⟩ | ⟨j, hj, hjk, hget, hall⟩
      · left
        refine ⟨by simp [lastIndexOfFrom, hk, h], ?_⟩
        intro i hi
        rcases Nat.lt_succ_iff_lt_or_eq.mp hi with h' | h'
        · exact hall i h'
        · subst h'; exact hk
      · right
        refine ⟨j, by simp [lastIndexOfFrom, hk, hj], Nat.lt_succ_of_lt hjk, hget, ?_⟩
        intro i h1 h2
        rcases Nat.lt_succ_iff_lt_or_eq.mp h2 with h' | h'
        · exact hall i h1 h'
        · subst h'; exact hk

lemma not_mem_of_index_ne (s : List Char) (c : Char)
    (h : ∀ i, i < s.length → s[i]? ≠ some c) : c ∉ s := by
  intro hc
  obtain ⟨i, hi, hget⟩ := List.getElem_of_mem hc
  apply h i hi
  simp [List.getElem?_eq_getElem hi, hget]

lemma split_at_last (s : List Char) (c : Char) (j : Nat) (hj : j < s.length)
    (hget : s[j]? = some c) (hall : ∀ i, j < i → i < s.length → s[i]? ≠ some c) :
    s = s.take j ++ c :: s.drop (j + 1) ∧ c ∉ s.drop (j + 1) := by
  constructor
  · have h1 : s.drop j = c :: s.drop (j + 1) := by
      rw [List.drop_eq_getElem_cons hj]
      congr 1
      rw [List.getElem?_eq_getElem hj] at hget
      exact Option.some.inj hget
    conv_lhs => rw [← List.take_append_drop j s, h1]
  · apply not_mem_of_index_ne
    intro i hi
    rw [List.length_drop] at hi
    rw [List.getElem?_drop]
    apply hall <;> omega

/-! ## Lemmas on the decimal rendering -/

lemma digitChar_value (d : Nat) (h : d < 10) :
    (Nat.digitChar d).toNat - 48 = d ∧ Nat.digitChar d ≠ '-' := by
  interval_cases d <;> decide

lemma digitsValue_append_singleton (ds : List Char) (c : Char) :
    digitsValue (ds ++ [c]) = 10 * digitsValue ds + (c.toNat - 48) := by
  simp [digitsValue, List.foldl_append]

lemma toDigitsCore_spec (fuel : Nat) : ∀ (n : Nat) (ds : List Char), n < fuel →
    ∃ pre : List Char, Nat.toDigitsCore 10 fuel n ds = pre ++ ds ∧
      (∀ c ∈ pre, c ≠ '-') ∧ digitsValue pre = n := by
  induction fuel with
  | zero => intro n ds h; omega
  | succ fuel ih =>
    intro n ds h
    have hd := digitChar_value (n % 10) (Nat.mod_lt n (by decide))
    by_cases h0 : n / 10 = 0
    · refine ⟨[Nat.digitChar (n % 10)], by simp [Nat.toDigitsCore, h0], ?_, ?_⟩
      · intro c hc
        rw [List.mem_singleton] at hc
        rw [hc]; exact hd.2
      · have : digitsValue [Nat.digitChar (n % 10)] = (Nat.digitChar (n % 10)).toNat - 48 := by
          simp [digitsValue]
        rw [this, hd.1]
        omega
    · obtain ⟨pre, hpre, hdig, hval⟩ := ih (n / 10) (Nat.digitChar (n % 10) :: ds) (by omega)
      refine ⟨pre ++ [Nat.digitChar (n % 10)], ?_, ?_, ?_⟩
      · simp [Nat.toDigitsCore, h0, hpre]
      · intro c hc
        rcases List.mem_append.mp hc with h' | h'
        · exact hdig c h'
        · rw [List.mem_singleton] at h'
          rw [h']; exact hd.2
      · rw [digitsValue_append_singleton, hval, hd.1]
        omega

lemma decimal_spec (n : Nat) :
    (∀ c ∈ (decimal n).data, c ≠ '-') ∧ digitsValue (decimal n).data = n := by
  obtain ⟨pre, hpre, hdig, hval⟩ := toDigitsCore_spec (n + 1) n [] (Nat.lt_succ_self n)
  have : (decimal n).data = pre := by
    simp [decimal, Nat.repr, Nat.toDigits, hpre, List.asString]
  rw [this]
  exact ⟨hdig, hval⟩

lemma decimal_injective {a b : Nat} (h : decimal a = decimal b) : a = b := by
  have ha := (decimal_spec a).2
  have hb := (decimal_spec b).2
  rw [h] at ha
  omega

lemma split_at_first {c : Char} : ∀ (p q r s : List Char),
    (∀ x ∈ p, x ≠ c) → (∀ x ∈ q, x ≠ c) → p ++ c :: r = q ++ c :: s → p = q ∧ r = s := by
  intro p
  induction p with
  | nil =>
    intro q r s _ hq h
    cases q with
    | nil => simpa using h
    | cons y q =>
      simp only [List.nil_append, List.cons_append, List.cons.injEq] at h
      exact absurd h.1.symm (hq y (List.mem_cons_self y q))
  | cons x p ih =>
    intro q r s hp hq h
    cases q with
    | nil =>
      simp only [List.nil_append, List.cons_append, List.cons.injEq] at h
      exact absurd h.1 (hp x (List.mem_cons_self x p))
    | cons y q =>
      simp only [List.cons_append, List.cons.injEq] at h
      obtain ⟨h1, h2⟩ := ih q r s (fun z hz => hp z (List.mem_cons_of_mem x hz))
        (fun z hz => hq z (List.mem_cons_of_mem y hz)) h.2
      exact ⟨by rw [h.1, h1], h2⟩

/-! ## The pure helpers -/

/-- C2: `getFileType` returns one of the four kinds; a type starting with `image/`,
`video/` or `audio/` is classified as that kind; and the result is `other` exactly
when the type starts with none of the three. -/
theorem getFileType_classifies (t : String) :
    getFileType t ∈ ["image", "video", "audio", "other"] ∧
    ("image/".data <+: t.data → getFileType t = "image") ∧
    ("video/".data <+: t.data → getFileType t = "video") ∧
    ("audio/".data <+: t.data → getFileType t = "audio") ∧
    (getFileType t = "other" ↔
      ¬ "image/".data <+: t.data ∧ ¬ "video/".data <+: t.data ∧ ¬ "audio/".data <+: t.data) := by
  have hiv : "image/".data <+: t.data → "video/".data <+: t.data → False := fun h1 h2 =>
    absurd (head_eq_of_common h1 h2) (by decide)
  have hia : "image/".data <+: t.data → "audio/".data <+: t.data → False := fun h1 h2 =>
    absurd (head_eq_of_common h1 h2) (by decide)
  have hva : "video/".data <+: t.data → "audio/".data <+: t.data → False := fun h1 h2 =>
    absurd (head_eq_of_common h1 h2) (by decide)
  unfold getFileType
  by_cases hi : startsWith t "image/" = true
  · have hi' := (startsWith_iff _ _).mp hi
    rw [if_pos hi]
    refine ⟨by decide, fun _ => rfl, fun h => (hiv hi' h).elim, fun h => (hia hi' h).elim, ?_⟩
    exact ⟨fun h => absurd h (by decide), fun h => absurd hi' h.1⟩
  · have hi' : ¬ "image/".data <+: t.data := fun h => hi ((startsWith_iff _ _).mpr h)
    rw [if_neg hi]
    by_cases hv : startsWith t "video/" = true
    · have hv' := (startsWith_iff _ _).mp hv
      rw [if_pos hv]
      refine ⟨by decide, fun h => absurd h hi', fun _ => rfl, fun h => (hva hv' h).elim, ?_⟩
      exact ⟨fun h => absurd h (by decide), fun h => absurd hv' h.2.1⟩
    · have hv' : ¬ "video/".data <+: t.data := fun h => hv ((startsWith_iff _ _).mpr h)
      rw [if_neg hv]
      by_cases ha : startsWith t "audio/" = true
      · have ha' := (startsWith_iff _ _).mp ha
        rw [if_pos ha]
        refine ⟨by decide, fun h => absurd h hi', fun h => absurd h hv', fun _ => rfl, ?_⟩
        exact ⟨fun h => absurd h (by decide), fun h => absurd ha' h.2.2⟩
      · have ha' : ¬ "audio/".data <+: t.data := fun h => ha ((startsWith_iff _ _).mpr h)
        rw [if_neg ha]
        exact ⟨by decide, fun h => absurd h hi', fun h => absurd h hv', fun h => absurd h ha',
          fun _ => ⟨hi', hv', ha'⟩, fun _ => rfl⟩

/-- Witness for C2 at the type `video/mp4`. -/
theorem getFileType_classifies_witness :
    getFileType "video/mp4" = "video" :=
  (getFileType_classifies "video/mp4").2.2.1 ((startsWith_iff _ _).mp (by decide))

/-- C7: `getFileNameWithoutExtension` strips only the trailing extension: a name
without a dot is returned unchanged, and otherwise the name is the result, a dot,
and an extension that holds no dot. -/
theorem getFileNameWithoutExtension_strips (f : String) :
    ('.' ∉ f.data → getFileNameWithoutExtension f = f) ∧
    ('.' ∈ f.data → ∃ e : String,
      f = getFileNameWithoutExtension f ++ "." ++ e ∧ '.' ∉ e.data) ∧
    getFileNameWithoutExtension "a.b.png" = "a.b" ∧
    getFileNameWithoutExtension "noext" = "noext" := by
  refine ⟨?_, ?_, by decide, by decide⟩
  · intro hno
    rcases lastIndexOfFrom_cases f.data '.' f.length with ⟨h, _⟩ | ⟨j, _, hjk, hget, _⟩
    · simp [getFileNameWithoutExtension, lastIndexOf, h]
    · exact absurd (List.getElem?_mem hget) hno
  · intro hdot
    rcases lastIndexOfFrom_cases f.data '.' f.length with ⟨_, hall⟩ | ⟨j, hj, hjk, hget, hall⟩
    · exact absurd hdot (not_mem_of_index_ne _ _ hall)
    · obtain ⟨hsplit, hrest⟩ := split_at_last f.data '.' j hjk hget hall
      have hres : getFileNameWithoutExtension f = ⟨f.data.take j⟩ := by
        have hne : (j : Int) ≠ -1 := by omega
        have hle : j ≤ f.length := Nat.le_of_lt hjk
        have hnn : ¬ ((j : Int) < 0) := by omega
        simp [getFileNameWithoutExtension, lastIndexOf, hj, hne, slice, sliceIndex, hle, hnn]
      refine ⟨⟨f.data.drop (j + 1)⟩, ?_, hrest⟩
      apply String.ext
      rw [hres]
      simp only [String.data_append]
      simpa using hsplit

/-- Witness for C7 at the key `1700000000000-holiday.clip.mp4`. -/
theorem getFileNameWithoutExtension_strips_witness :
    ∃ e : String, "1700000000000-holiday.clip.mp4" =
      getFileNameWithoutExtension "1700000000000-holiday.clip.mp4" ++ "." ++ e ∧ '.' ∉ e.data :=
  (getFileNameWithoutExtension_strips "1700000000000-holiday.clip.mp4").2.1 (by decide)

/-- C1: with the filter `all` the view is the list itself; with the filter `image`,
`video` or `audio` the view is the sub-sequence of the list made of exactly the
items of that kind, in their order in the list. -/
theorem filteredFiles_view (L : List MediaItem) (k : String)
    (hk : k = "image" ∨ k = "video" ∨ k = "audio") :
    filteredFiles "all" L = L ∧
    filteredFiles k L = L.filter (fun f => decide (getFileType f.type = k)) ∧
    (filteredFiles k L).Sublist L ∧
    (∀ f ∈ filteredFiles k L, getFileType f.type = k) ∧
    (∀ f ∈ L, getFileType f.type = k → f ∈ filteredFiles k L) := by
  have hne : k ≠ "all" := by
    rcases hk with h | h | h <;> rw [h] <;> decide
  have hview : filteredFiles k L = L.filter (fun f => decide (getFileType f.type = k)) := by
    simp [filteredFiles, hne]
  refine ⟨by simp [filteredFiles], hview, ?_, ?_, ?_⟩
  · rw [hview]; exact List.filter_sublist L
  · intro f hf
    rw [hview, List.mem_filter] at hf
    simpa using hf.2
  · intro f hf hkind
    rw [hview, List.mem_filter]
    exact ⟨hf, by simpa using hkind⟩

/-- Witness for C1 on a three-item list and the filter `video`. -/
theorem filteredFiles_view_witness :
    filteredFiles "video"
      [⟨"1-a.mp4", "u1", "video/mp4"⟩, ⟨"2-b.png", "u2", "image/png"⟩, ⟨"3-c.webm", "u3", "video/webm"⟩]
      = [⟨"1-a.mp4", "u1", "video/mp4"⟩, ⟨"3-c.webm", "u3", "video/webm"⟩] := by
  have h := (filteredFiles_view
    [⟨"1-a.mp4", "u1", "video/mp4"⟩, ⟨"2-b.png", "u2", "image/png"⟩, ⟨"3-c.webm", "u3", "video/webm"⟩]
    "video" (Or.inr (Or.inl rfl))).2.1
  rw [h]
  decide

/-- C10: the object key `decimal(ts) + "-" + n` determines both the timestamp and the
file name, so two uploads of one file name at different timestamps get different
keys. -/
theorem blobName_injective (ts1 ts2 : Nat) (n1 n2 : String) :
    (blobName ts1 n1 = blobName ts2 n2 → ts1 = ts2 ∧ n1 = n2) ∧
    (ts1 ≠ ts2 → blobName ts1 n1 ≠ blobName ts2 n1) := by
  have key : blobName ts1 n1 = blobName ts2 n2 → ts1 = ts2 ∧ n1 = n2 := by
    intro h
    have hd : (decimal ts1).data ++ '-' :: n1.data = (decimal ts2).data ++ '-' :: n2.data := by
      have := congrArg String.data h
      simpa [blobName, String.data_append] using this
    obtain ⟨h1, h2⟩ := split_at_first _ _ _ _ (decimal_spec ts1).1 (decimal_spec ts2).1 hd
    exact ⟨decimal_injective (String.ext h1), String.ext h2⟩
  refine ⟨key, ?_⟩
  intro hne h
  have key' : blobName ts1 n1 = blobName ts2 n1 → ts1 = ts2 := by
    intro h
    have hd : (decimal ts1).data ++ '-' :: n1.data = (decimal ts2).data ++ '-' :: n1.data := by
      have := congrArg String.data h
      simpa [blobName, String.data_append] using this
    obtain ⟨h1, _⟩ := split_at_first _ _ _ _ (decimal_spec ts1).1 (decimal_spec ts2).1 hd
    exact decimal_injective (String.ext h1)
  exact hne (key' h)

/-- Witness for C10: a file name that itself starts with digits and a dash. -/
theorem blobName_injective_witness :
    blobName 17 "2-a.png" ≠ blobName 172 "2-a.png" :=
  (blobName_injective 17 172 "2-a.png" "2-a.png").2 (by decide)

/-! ## The controller -/

section Controller

variable {σ : Type}

lemma foldl_pushBlob (g : Gateway σ) (blobs : List Blob) : ∀ acc : List MediaItem,
    blobs.foldl (pushBlob g) acc = acc ++ blobs.map (fun b =>
      ({ name := b.name, url := g.url b.name,
         type := orElse b.contentType "application/octet-stream" } : MediaItem)) := by
  induction blobs with
  | nil => intro acc; simp
  | cons b bs ih =>
    intro acc
    rw [List.foldl_cons, ih]
    simp [pushBlob]

lemma fetchFiles_error (g : Gateway σ) (w : World σ) (e : Err)
    (h : (g.listBlobsFlat w.remote).1.error = some e) :
    fetchFiles g w = (.ok (),
      { app := { w.app with loading := false },
        remote := (g.listBlobsFlat w.remote).2,
        now := w.now,
        trace := w.trace ++ [.setLoading true, .gateway .listBlobsFlat true,
          .consoleError e, .setLoading false] }) := by
  simp [fetchFiles, Ctl.tryCatchFinally, bind, Ctl.andThen, setLoading, callListBlobsFlat, h,
    Ctl.raise, consoleError, emit]

lemma fetchFiles_ok (g : Gateway σ) (w : World σ)
    (h : (g.listBlobsFlat w.remote).1.error = none) :
    fetchFiles g w = (.ok (),
      { app := { w.app with
          fileUrls := (g.listBlobsFlat w.remote).1.yielded.foldl (pushBlob g) [],
          loading := false },
        remote := (g.listBlobsFlat w.remote).2,
        now := w.now,
        trace := w.trace ++ [.setLoading true, .gateway .listBlobsFlat true,
          .setFileUrls ((g.listBlobsFlat w.remote).1.yielded.foldl (pushBlob g) []),
          .setLoading false] }) := by
  simp [fetchFiles, Ctl.tryCatchFinally, bind, Ctl.andThen, setLoading, callListBlobsFlat, h,
    setFileUrls]

end Controller

section ControllerClaims

variable {σ : Type}

/-- C3: with no file selected or no kind declared, `handleSubmit` only raises the
validation alert: no gateway call is made and the component state (list, pending
file, declared kind, loading flag) and the remote container are unchanged. -/
theorem handleSubmit_rejects_incomplete (g : Gateway σ) (w : World σ)
    (h : w.app.file = none ∨ w.app.fileType = "") :
    (handleSubmit g w).1 = .ok () ∧
    (handleSubmit g w).2.trace =
      w.trace ++ [.preventDefault, .alert "Please select a file type and file to upload"] ∧
    (handleSubmit g w).2.app = w.app ∧
    (handleSubmit g w).2.remote = w.remote := by
  simp [handleSubmit, bind, Ctl.andThen, preventDefault, emit, readApp, alert, h]

/-- Witness for C3: a kind is declared but no file is selected. -/
theorem handleSubmit_rejects_incomplete_witness :
    (handleSubmit (memoryGateway Faults.none)
      (sampleWorld { AppState.initial with fileType := "image" } [] 17)).2.trace =
      [.preventDefault, .alert "Please select a file type and file to upload"] :=
  (handleSubmit_rejects_incomplete (memoryGateway Faults.none)
    (sampleWorld { AppState.initial with fileType := "image" } [] 17) (Or.inl rfl)).2.1

/-- C4: when the blob enumeration rejects, after any number of yielded blobs,
`fetchFiles` ends normally, the list is the one held before, and the effects are the
two loading writes, the listing call and the logging of the error: the list is
never written. -/
theorem fetchFiles_failure_keeps_list (g : Gateway σ) (w : World σ) (e : Err)
    (h : (g.listBlobsFlat w.remote).1.error = some e) :
    (fetchFiles g w).1 = .ok () ∧
    (fetchFiles g w).2.app.fileUrls = w.app.fileUrls ∧
    (fetchFiles g w).2.trace = w.trace ++ [.setLoading true, .gateway .listBlobsFlat true,
      .consoleError e, .setLoading false] := by
  rw [fetchFiles_error g w e h]
  exact ⟨rfl, rfl, rfl⟩

/-- Witness for C4: the listing rejects after yielding one of two stored blobs. -/
theorem fetchFiles_failure_keeps_list_witness :
    (fetchFiles (memoryGateway { Faults.none with listFailsAfter := some 1 })
      (sampleWorld { AppState.initial with fileUrls := [⟨"1-old.png", "u", "image/png"⟩] }
        [⟨"1-old.png", some "image/png"⟩, ⟨"2-new.png", some "image/png"⟩] 17)).2.app.fileUrls =
      [⟨"1-old.png", "u", "image/png"⟩] :=
  (fetchFiles_failure_keeps_list (memoryGateway { Faults.none with listFailsAfter := some 1 })
    (sampleWorld { AppState.initial with fileUrls := [⟨"1-old.png", "u", "image/png"⟩] }
      [⟨"1-old.png", some "image/png"⟩, ⟨"2-new.png", some "image/png"⟩] 17)
    "RestError: list" rfl).2.1

/-- C8: when the blob enumeration succeeds, `fetchFiles` stores one item per
enumerated blob, in enumeration order, with the blob's name, the url of its client,
and the blob's content type when present and non-empty and
`application/octet-stream` otherwise; no stored item has an empty content type. -/
theorem fetchFiles_success_lists_blobs (g : Gateway σ) (w : World σ)
    (h : (g.listBlobsFlat w.remote).1.error = none) :
    (fetchFiles g w).1 = .ok () ∧
    List.Forall₂ (fun (blob : Blob) (item : MediaItem) =>
        item.name = blob.name ∧ item.url = g.url blob.name ∧
        (∀ t, blob.contentType = some t → t ≠ "" → item.type = t) ∧
        (blob.contentType = none ∨ blob.contentType = some "" →
          item.type = "application/octet-stream"))
      (g.listBlobsFlat w.remote).1.yielded (fetchFiles g w).2.app.fileUrls ∧
    ∀ item ∈ (fetchFiles g w).2.app.fileUrls, item.type ≠ "" := by
  rw [fetchFiles_ok g w h]
  simp only [foldl_pushBlob, List.nil_append]
  refine ⟨trivial, ?_, ?_⟩
  · rw [List.forall₂_map_right_iff]
    apply List.forall₂_same.mpr
    intro b _
    refine ⟨rfl, rfl, ?_, ?_⟩
    · intro t ht hne
      simp [orElse, ht, hne]
    · intro hb
      rcases hb with hb | hb <;> simp [orElse, hb]
  · intro item hitem
    obtain ⟨b, _, rfl⟩ := List.mem_map.mp hitem
    cases hb : b.contentType with
    | none => simp [orElse]
    | some t =>
      by_cases ht : t = ""
      · simp [orElse, ht]
      · simp [orElse, ht]

/-- Witness for C8: three blobs, one without a content type and one with an empty one. -/
theorem fetchFiles_success_lists_blobs_witness :
    (fetchFiles (memoryGateway Faults.none)
      (sampleWorld AppState.initial
        [⟨"1-a.png", some "image/png"⟩, ⟨"2-b", none⟩, ⟨"3-c", some ""⟩] 17)).1 = .ok () ∧
    ∀ item ∈ (fetchFiles (memoryGateway Faults.none)
      (sampleWorld AppState.initial
        [⟨"1-a.png", some "image/png"⟩, ⟨"2-b", none⟩, ⟨"3-c", some ""⟩] 17)).2.app.fileUrls,
      item.type ≠ "" :=
  ⟨(fetchFiles_success_lists_blobs (memoryGateway Faults.none)
      (sampleWorld AppState.initial
        [⟨"1-a.png", some "image/png"⟩, ⟨"2-b", none⟩, ⟨"3-c", some ""⟩] 17) rfl).1,
    (fetchFiles_success_lists_blobs (memoryGateway Faults.none)
      (sampleWorld AppState.initial
        [⟨"1-a.png", some "image/png"⟩, ⟨"2-b", none⟩, ⟨"3-c", some ""⟩] 17) rfl).2.2⟩

end ControllerClaims

section Operations

variable {σ : Type}

lemma loadingBrackets_fetchFiles (g : Gateway σ) (w : World σ) :
    LoadingBrackets (fetchFiles g) w := by
  unfold LoadingBrackets
  cases h : (g.listBlobsFlat w.remote).1.error with
  | none =>
    rw [fetchFiles_ok g w h]
    refine ⟨rfl, rfl, _, rfl, ?_⟩
    intro c l hmem
    simp at hmem
    exact hmem.2
  | some e =>
    rw [fetchFiles_error g w e h]
    refine ⟨rfl, rfl, _, rfl, ?_⟩
    intro c l hmem
    simp at hmem
    exact hmem.2

lemma loadingBrackets_handleDelete (g : Gateway σ) (w : World σ) (key : String) :
    LoadingBrackets (handleDelete g key) w := by
  unfold LoadingBrackets
  rcases hd : g.delete key w.remote with ⟨r, rem⟩
  cases r with
  | error e =>
    simp [handleDelete, Ctl.tryCatchFinally, bind, Ctl.andThen, setLoading, callDelete, hd,
      consoleError, emit]
  | ok u =>
    cases hl : (g.listBlobsFlat rem).1.error with
    | none =>
      simp [handleDelete, Ctl.tryCatchFinally, bind, Ctl.andThen, setLoading, callDelete, hd,
        consoleError, emit, fetchFiles, callListBlobsFlat, hl, setFileUrls]
    | some e =>
      simp [handleDelete, Ctl.tryCatchFinally, bind, Ctl.andThen, setLoading, callDelete, hd,
        consoleError, emit, fetchFiles, callListBlobsFlat, hl, Ctl.raise]

lemma loadingBrackets_handleSubmit (g : Gateway σ) (w : World σ) (f : File)
    (hfile : w.app.file = some f) (hkind : w.app.fileType ≠ "") :
    LoadingBrackets (handleSubmit g) w := by
  unfold LoadingBrackets
  rcases hu : g.uploadData (blobName w.now f.name) f f.type w.remote with ⟨r, rem⟩
  cases r with
  | error e =>
    simp [handleSubmit, Ctl.tryCatchFinally, bind, Ctl.andThen, setLoading, callUploadData, hu,
      consoleError, emit, preventDefault, readApp, hfile, hkind, dateNow]
  | ok u =>
    cases hl : (g.listBlobsFlat rem).1.error with
    | none =>
      simp [handleSubmit, Ctl.tryCatchFinally, bind, Ctl.andThen, setLoading, callUploadData, hu,
        consoleError, emit, preventDefault, readApp, hfile, hkind, dateNow,
        fetchFiles, callListBlobsFlat, hl, setFileUrls, setFile, setFileType]
    | some e =>
      simp [handleSubmit, Ctl.tryCatchFinally, bind, Ctl.andThen, setLoading, callUploadData, hu,
        consoleError, emit, preventDefault, readApp, hfile, hkind, dateNow,
        fetchFiles, callListBlobsFlat, hl, Ctl.raise, setFile, setFileType]

lemma fetchFiles_calls (g : Gateway σ) (w : World σ) :
    Event.gateway .listBlobsFlat true ∈ (fetchFiles g w).2.trace := by
  cases h : (g.listBlobsFlat w.remote).1.error with
  | none => rw [fetchFiles_ok g w h]; simp
  | some e => rw [fetchFiles_error g w e h]; simp

lemma handleDelete_calls (g : Gateway σ) (w : World σ) (key : String) :
    Event.gateway (.delete key) true ∈ (handleDelete g key w).2.trace := by
  rcases hd : g.delete key w.remote with ⟨r, rem⟩
  cases r with
  | error e =>
    simp [handleDelete, Ctl.tryCatchFinally, bind, Ctl.andThen, setLoading, callDelete, hd,
      consoleError, emit]
  | ok u =>
    cases hl : (g.listBlobsFlat rem).1.error with
    | none =>
      simp [handleDelete, Ctl.tryCatchFinally, bind, Ctl.andThen, setLoading, callDelete, hd,
        consoleError, emit, fetchFiles, callListBlobsFlat, hl, setFileUrls]
    | some e =>
      simp [handleDelete, Ctl.tryCatchFinally, bind, Ctl.andThen, setLoading, callDelete, hd,
        consoleError, emit, fetchFiles, callListBlobsFlat, hl, Ctl.raise]

lemma handleSubmit_calls (g : Gateway σ) (w : World σ) (f : File)
    (hfile : w.app.file = some f) (hkind : w.app.fileType ≠ "") :
    Event.gateway (.uploadData (blobName w.now f.name) f.type) true ∈
      (handleSubmit g w).2.trace := by
  rcases hu : g.uploadData (blobName w.now f.name) f f.type w.remote with ⟨r, rem⟩
  cases r with
  | error e =>
    simp [handleSubmit, Ctl.tryCatchFinally, bind, Ctl.andThen, setLoading, callUploadData, hu,
      consoleError, emit, preventDefault, readApp, hfile, hkind, dateNow]
  | ok u =>
    cases hl : (g.listBlobsFlat rem).1.error with
    | none =>
      simp [handleSubmit, Ctl.tryCatchFinally, bind, Ctl.andThen, setLoading, callUploadData, hu,
        consoleError, emit, preventDefault, readApp, hfile, hkind, dateNow,
        fetchFiles, callListBlobsFlat, hl, setFileUrls, setFile, setFileType]
    | some e =>
      simp [handleSubmit, Ctl.tryCatchFinally, bind, Ctl.andThen, setLoading, callUploadData, hu,
        consoleError, emit, preventDefault, readApp, hfile, hkind, dateNow,
        fetchFiles, callListBlobsFlat, hl, Ctl.raise, setFile, setFileType]

end Operations

section Mutations

variable {σ : Type}

lemma handleSubmit_fileUrls (g : Gateway σ) (w : World σ) (f : File)
    (hfile : w.app.file = some f) (hkind : w.app.fileType ≠ "")
    (hup : (g.uploadData (blobName w.now f.name) f f.type w.remote).1 = .ok ())
    (hl : (g.listBlobsFlat (g.uploadData (blobName w.now f.name) f f.type w.remote).2).1.error
      = none) :
    (handleSubmit g w).2.app.fileUrls =
      (g.listBlobsFlat (g.uploadData (blobName w.now f.name) f f.type w.remote).2).1.yielded.map
        (fun b => ({ name := b.name, url := g.url b.name,
                     type := orElse b.contentType "application/octet-stream" } : MediaItem)) := by
  rw [← List.nil_append (List.map _ _), ← foldl_pushBlob]
  simp [handleSubmit, Ctl.tryCatchFinally, bind, Ctl.andThen, setLoading, callUploadData, hup,
    consoleError, emit, preventDefault, readApp, hfile, hkind, dateNow,
    fetchFiles, callListBlobsFlat, hl, setFileUrls, setFile, setFileType]

lemma handleDelete_fileUrls (g : Gateway σ) (w : World σ) (key : String)
    (hdel : (g.delete key w.remote).1 = .ok ())
    (hl : (g.listBlobsFlat (g.delete key w.remote).2).1.error = none) :
    (handleDelete g key w).2.app.fileUrls =
      (g.listBlobsFlat (g.delete key w.remote).2).1.yielded.map
        (fun b => ({ name := b.name, url := g.url b.name,
                     type := orElse b.contentType "application/octet-stream" } : MediaItem)) := by
  rw [← List.nil_append (List.map _ _), ← foldl_pushBlob]
  simp [handleDelete, Ctl.tryCatchFinally, bind, Ctl.andThen, setLoading, callDelete, hdel,
    consoleError, emit, fetchFiles, callListBlobsFlat, hl, setFileUrls]

lemma memoryGateway_listsStoredKeys (faults : Faults) (h : faults.listFailsAfter = none) :
    (memoryGateway faults).ListsStoredKeys (fun store => store.map Blob.name) := by
  constructor
  · intro r
    simp [memoryGateway, h]
  · intro k f t r
    by_cases hu : faults.uploadFails = true
    · simp [memoryGateway, hu]
    · simp [memoryGateway, hu]
  · intro k r
    by_cases hd : (faults.deleteFails || !r.any (fun b => decide (b.name = k))) = true
    · simp only [memoryGateway, hd, if_true]
      intro hcontra
      cases hcontra
    · simp only [memoryGateway, hd]
      intro _
      simp

/-- C5: over a gateway whose listing returns the stored keys, after a `handleSubmit`
whose `uploadData` succeeds at timestamp `now`, the list held by the controller has
an item whose name is the key written, `decimal(now) + "-" + file.name`: it starts
with the decimal rendering of the timestamp and ends with the file name. -/
theorem handleSubmit_lists_uploaded_key (g : Gateway σ) (keys : σ → List String)
    (hg : g.ListsStoredKeys keys) (w : World σ) (f : File)
    (hfile : w.app.file = some f) (hkind : w.app.fileType ≠ "")
    (hup : (g.uploadData (blobName w.now f.name) f f.type w.remote).1 = .ok ()) :
    ∃ item ∈ (handleSubmit g w).2.app.fileUrls,
      item.name = decimal w.now ++ "-" ++ f.name ∧
      (decimal w.now).data <+: item.name.data ∧
      f.name.data <:+ item.name.data := by
  have hlist := hg.listing (g.uploadData (blobName w.now f.name) f f.type w.remote).2
  have hmem := hg.uploaded (blobName w.now f.name) f f.type w.remote hup
  rw [← hlist.2] at hmem
  obtain ⟨b, hb, hname⟩ := List.mem_map.mp hmem
  rw [handleSubmit_fileUrls g w f hfile hkind hup hlist.1]
  refine ⟨_, List.mem_map.mpr ⟨b, hb, rfl⟩, ?_, ?_, ?_⟩
  · exact hname
  · show (decimal w.now).data <+: b.name.data
    rw [hname]
    exact ⟨("-" ++ f.name).data, by simp [blobName, String.data_append]⟩
  · show f.name.data <:+ b.name.data
    rw [hname]
    exact ⟨(decimal w.now ++ "-").data, by simp [blobName, String.data_append]⟩

/-- Witness for C5: the file `cat.png` uploaded at timestamp 1700000000000 into a
container that already holds one blob. -/
theorem handleSubmit_lists_uploaded_key_witness :
    ∃ item ∈ (handleSubmit (memoryGateway Faults.none)
        (sampleWorld { AppState.initial with
            file := some ⟨"cat.png", "image/png"⟩, fileType := "image" }
          [⟨"5-old.mp3", some "audio/mpeg"⟩] 1700000000000)).2.app.fileUrls,
      item.name = decimal 1700000000000 ++ "-" ++ "cat.png" ∧
      (decimal 1700000000000).data <+: item.name.data ∧
      "cat.png".data <:+ item.name.data :=
  handleSubmit_lists_uploaded_key (memoryGateway Faults.none) (fun store => store.map Blob.name)
    (memoryGateway_listsStoredKeys Faults.none rfl)
    (sampleWorld { AppState.initial with
        file := some ⟨"cat.png", "image/png"⟩, fileType := "image" }
      [⟨"5-old.mp3", some "audio/mpeg"⟩] 1700000000000)
    ⟨"cat.png", "image/png"⟩ rfl (by decide) rfl

/-- C6: over a gateway whose listing returns the stored keys, after a
`handleDelete(key)` whose `delete` succeeds, the list held by the controller has no
item named `key`. -/
theorem handleDelete_unlists_key (g : Gateway σ) (keys : σ → List String)
    (hg : g.ListsStoredKeys keys) (w : World σ) (key : String)
    (hdel : (g.delete key w.remote).1 = .ok ()) :
    ∀ item ∈ (handleDelete g key w).2.app.fileUrls, item.name ≠ key := by
  have hlist := hg.listing (g.delete key w.remote).2
  have hnot := hg.deleted key w.remote hdel
  rw [← hlist.2] at hnot
  rw [handleDelete_fileUrls g w key hdel hlist.1]
  intro item hitem hname
  obtain ⟨b, hb, rfl⟩ := List.mem_map.mp hitem
  exact hnot (List.mem_map.mpr ⟨b, hb, hname⟩)

/-- Witness for C6: one of two stored blobs is deleted. -/
theorem handleDelete_unlists_key_witness :
    ((memoryGateway Faults.none).delete "5-old.mp3"
        [⟨"5-old.mp3", some "audio/mpeg"⟩, ⟨"6-new.png", some "image/png"⟩]).1 = .ok () ∧
    ∀ item ∈ (handleDelete (memoryGateway Faults.none) "5-old.mp3"
        (sampleWorld AppState.initial
          [⟨"5-old.mp3", some "audio/mpeg"⟩, ⟨"6-new.png", some "image/png"⟩] 17)).2.app.fileUrls,
      item.name ≠ "5-old.mp3" :=
  ⟨rfl, handleDelete_unlists_key (memoryGateway Faults.none) (fun store => store.map Blob.name)
    (memoryGateway_listsStoredKeys Faults.none rfl)
    (sampleWorld AppState.initial
      [⟨"5-old.mp3", some "audio/mpeg"⟩, ⟨"6-new.png", some "image/png"⟩] 17)
    "5-old.mp3" rfl⟩

/-- C9: each of `fetchFiles`, `handleDelete` and `handleSubmit` (with a file and a
kind set), run from any state and whatever its gateway calls answer, ends normally
with the loading flag false, and each of its gateway calls (it makes at least its
first one) was outstanding with the loading flag true. -/
theorem loading_flag_brackets_gateway_calls (g : Gateway σ) (w : World σ) (key : String) :
    (LoadingBrackets (fetchFiles g) w ∧
      Event.gateway .listBlobsFlat true ∈ (fetchFiles g w).2.trace) ∧
    (LoadingBrackets (handleDelete g key) w ∧
      Event.gateway (.delete key) true ∈ (handleDelete g key w).2.trace) ∧
    (∀ f : File, w.app.file = some f → w.app.fileType ≠ "" →
      LoadingBrackets (handleSubmit g) w ∧
      Event.gateway (.uploadData (blobName w.now f.name) f.type) true ∈
        (handleSubmit g w).2.trace) :=
  ⟨⟨loadingBrackets_fetchFiles g w, fetchFiles_calls g w⟩,
    ⟨loadingBrackets_handleDelete g w key, handleDelete_calls g w key⟩,
    fun f hfile hkind => ⟨loadingBrackets_handleSubmit g w f hfile hkind,
      handleSubmit_calls g w f hfile hkind⟩⟩

/-- Witness for C9: an upload that the gateway rejects. -/
theorem loading_flag_brackets_gateway_calls_witness :
    LoadingBrackets (handleSubmit (memoryGateway { Faults.none with uploadFails := true }))
      (sampleWorld { AppState.initial with
          file := some ⟨"cat.png", "image/png"⟩, fileType := "image" } [] 17) :=
  (loading_flag_brackets_gateway_calls (memoryGateway { Faults.none with uploadFails := true })
    (sampleWorld { AppState.initial with
        file := some ⟨"cat.png", "image/png"⟩, fileType := "image" } [] 17) "k").2.2
    ⟨"cat.png", "image/png"⟩ rfl (by decide) |>.1

end Mutations

end CloudMediaSharing
